import Mathlib

/-!
Verification of the DroneDetection-PI detection-session core.

Shallow embedding of the repository's Python code:
* `src/utils.py` — `FPSCalculator`, `DetectionCounter`;
* `src/detector.py` — `DroneDetector.detect`, `process_results`,
  `get_detection_summary`, `draw_custom_annotations`;
* `src/main.py` — the Telegram-alert cooldown logic of `run_detection_loop`.

Wall-clock timestamps (`time.time()`) and durations are modelled as `ℚ`;
image frames and the external OpenCV drawing calls are abstract parameters;
fallible external calls (YOLO inference, Telegram sends) are modelled by
`Except`/`Option` values and by explicit success booleans.
-/

/-- A detection dict as built by `DroneDetector.process_results`
(`src/detector.py` lines 82-87): keys `class_name`, `confidence`,
`bbox`, `class_id`. -/
structure Detection where
  class_name : String
  confidence : ℚ
  bbox : List ℚ
  class_id : ℤ
deriving DecidableEq

/-- The fixed four-entry class catalog: the key set of the dicts built in
`DetectionCounter.reset` (`src/utils.py` line 57) and of
`DroneDetector.class_names` (`src/detector.py` lines 13-18). -/
def catalog : List String := ["Pesawat", "Burung", "Drone", "Helikopter"]

/-- `DroneDetector.class_names` as a partial map from class id
(`src/detector.py` lines 13-18). -/
def class_names (cls_id : ℤ) : Option String :=
  if cls_id = 0 then some "Pesawat"
  else if cls_id = 1 then some "Burung"
  else if cls_id = 2 then some "Drone"
  else if cls_id = 3 then some "Helikopter"
  else none

/-- `self.class_names.get(cls_id, f"Class_{cls_id}")`
(`src/detector.py` line 80). -/
def classNameOf (cls_id : ℤ) : String :=
  (class_names cls_id).getD ("Class_" ++ toString cls_id)

/-! ## DetectionCounter (`src/utils.py` lines 51-75)

The three dicts `frame_counts` / `session_counts` / `total_counts` all have
the fixed key set `catalog`, created by `reset` and never extended.  A dict
with that fixed key set is modelled as a total function `String → ℕ`
(values at non-catalog keys are phantom: no code path ever writes them). -/

/-- One iteration of the loops in `update_frame_counts` /
`update_session_counts` (`src/utils.py` lines 65-68 and 72-75):
`if class_name in counts: counts[class_name] += 1`. -/
def incCount (m : String → ℕ) (d : Detection) : String → ℕ :=
  if d.class_name ∈ catalog then
    fun s => if s = d.class_name then m s + 1 else m s
  else m

/-- `DetectionCounter.update_frame_counts` (`src/utils.py` lines 61-68):
zero every existing key, then increment per detection whose
`class_name` is a key. -/
def update_frame_counts (old : String → ℕ) (dets : List Detection) : String → ℕ :=
  dets.foldl incCount (fun s => if s ∈ catalog then 0 else old s)

/-- `DetectionCounter.update_session_counts` (`src/utils.py` lines 70-75):
increment per detection whose `class_name` is a key, no zeroing. -/
def update_session_counts (old : String → ℕ) (dets : List Detection) : String → ℕ :=
  dets.foldl incCount old

/-- `DetectionCounter.reset` (`src/utils.py` lines 55-59): every counter dict
is re-created with all four values 0. -/
def reset_counts : String → ℕ := fun _ => 0

theorem foldl_incCount (dets : List Detection) :
    ∀ (m : String → ℕ) (s : String),
      (dets.foldl incCount m) s
        = m s + dets.countP (fun d => decide (d.class_name = s ∧ d.class_name ∈ catalog)) := by
  induction dets with
  | nil => intro m s; simp
  | cons d rest ih =>
    intro m s
    rw [List.foldl_cons, ih, List.countP_cons]
    have hstep : incCount m d s
        = m s + (if d.class_name = s ∧ d.class_name ∈ catalog then 1 else 0) := by
      unfold incCount
      by_cases hc : d.class_name ∈ catalog
      · rw [if_pos hc]
        by_cases he : s = d.class_name
        · simp [he, hc]
        · have he2 : ¬ d.class_name = s := fun h => he h.symm
          simp [he, he2]
      · rw [if_neg hc]
        simp [hc]
    rw [hstep]
    by_cases hp : d.class_name = s ∧ d.class_name ∈ catalog
    · simp [hp]
      omega
    · simp [hp]

/-- A sample drone detection used by concrete evaluations. -/
def sampleDrone : Detection :=
  { class_name := "Drone", confidence := 9/10, bbox := [0, 0, 1, 1], class_id := 2 }

/-- A sample detection whose class name is outside the catalog. -/
def sampleUnknown : Detection :=
  { class_name := "Class_7", confidence := 1/2, bbox := [2, 2, 3, 3], class_id := 7 }

/-- C5: for every prior counter state and every detection list,
`update_frame_counts` leaves each catalog class with exactly the number of
detections of that class in the list — independent of the prior state
(zeroed first), with non-catalog class names contributing nothing. -/
theorem frame_counts_current_only (old : String → ℕ) (dets : List Detection)
    (s : String) (hs : s ∈ catalog) :
    update_frame_counts old dets s = dets.countP (fun d => decide (d.class_name = s)) := by
  unfold update_frame_counts
  rw [foldl_incCount]
  simp only [if_pos hs, Nat.zero_add]
  apply List.countP_congr
  intro d _
  by_cases h : d.class_name = s
  · simp [h, hs]
  · simp [h]

theorem frame_counts_current_only_witness :
    update_frame_counts (fun _ => 99) [sampleDrone, sampleUnknown, sampleDrone] "Drone"
      = ([sampleDrone, sampleUnknown, sampleDrone].countP
          (fun d => decide (d.class_name = "Drone"))) :=
  frame_counts_current_only (fun _ => 99) [sampleDrone, sampleUnknown, sampleDrone]
    "Drone" (by decide)

/-- C6: each `update_session_counts` call adds to every catalog class exactly
the number of detections of that class (hence each per-class session count is
monotonically non-decreasing across calls), and `reset` returns counts
to zero. -/
theorem session_counts_monotone (old : String → ℕ) (dets : List Detection)
    (s : String) (hs : s ∈ catalog) :
    update_session_counts old dets s
        = old s + dets.countP (fun d => decide (d.class_name = s)) ∧
    (∀ u : String, old u ≤ update_session_counts old dets u) ∧
    reset_counts s = 0 := by
  refine ⟨?_, ?_, rfl⟩
  · unfold update_session_counts
    rw [foldl_incCount]
    congr 1
    apply List.countP_congr
    intro d _
    by_cases h : d.class_name = s
    · simp [h, hs]
    · simp [h]
  · intro u
    unfold update_session_counts
    rw [foldl_incCount]
    exact Nat.le_add_right _ _

theorem session_counts_monotone_witness :
    update_session_counts (fun _ => 4) [sampleDrone, sampleUnknown] "Drone"
        = 4 + ([sampleDrone, sampleUnknown].countP
            (fun d => decide (d.class_name = "Drone"))) ∧
    (∀ u : String,
        (fun _ => 4) u ≤ update_session_counts (fun _ => 4) [sampleDrone, sampleUnknown] u) ∧
    reset_counts "Drone" = 0 :=
  session_counts_monotone (fun _ => 4) [sampleDrone, sampleUnknown] "Drone" (by decide)

/-! ## Unknown-class fallback (`src/detector.py` line 80) -/

theorem class_fallback_not_in_catalog (s : String) : ("Class_" ++ s) ∉ catalog := by
  intro hmem
  have hdata : ∀ t : String, ("Class_" ++ s) = t → ("Class_" ++ s).data = t.data := by
    intro t ht; rw [ht]
  simp only [catalog, List.mem_cons, List.not_mem_nil, or_false] at hmem
  rcases hmem with h | h | h | h <;>
    · have h2 := hdata _ h
      rw [String.data_append] at h2
      simp only [show "Class_".data = ['C', 'l', 'a', 's', 's', '_'] from rfl] at h2
      simp_all

/-! ## DroneDetector.detect / process_results (`src/detector.py` lines 47-95)

A YOLO box carries a confidence, a class id and four coordinates; a YOLO
result carries a (possibly empty) box list.  `result.plot()` plus the
colour-space conversion is an external call that may raise, modelled as a
function into `Option Frame` (`none` = the `except` branch was taken, in
which case `process_results` returns `(None, [])`). -/

structure YoloBox where
  conf : ℚ
  cls : ℤ
  xyxy : List ℚ
deriving DecidableEq

structure YoloResult where
  boxes : List YoloBox
deriving DecidableEq

/-- The detection dict built for one box (`src/detector.py` lines 75-87). -/
def mkDetection (b : YoloBox) : Detection :=
  { class_name := classNameOf b.cls, confidence := b.conf,
    bbox := b.xyxy, class_id := b.cls }

/-- `DroneDetector.detect` (`src/detector.py` lines 47-57): `None` when the
model is not loaded; otherwise run the model, and `None` when it raises.
The loaded model is an abstract function from a frame and a confidence
threshold to either a result list or a raised exception. -/
def detect {Frame : Type} (model : Option (Frame → ℚ → Except String (List YoloResult)))
    (frame : Frame) (confidence_threshold : ℚ) : Option (List YoloResult) :=
  match model with
  | none => none
  | some run =>
    match run frame confidence_threshold with
    | Except.ok rs => some rs
    | Except.error _ => none

/-- `DroneDetector.process_results` (`src/detector.py` lines 59-95). -/
def process_results {Frame : Type} (plot : YoloResult → Option Frame)
    (results : Option (List YoloResult)) : Option Frame × List Detection :=
  match results with
  | none => (none, [])
  | some rs =>
    match rs with
    | [] => (none, [])
    | r :: _ =>
      match plot r with
      | none => (none, [])
      | some f => (some f, r.boxes.map mkDetection)

/-- C7: an unmapped class id yields exactly the label `"Class_<id>"`, that
label is not a catalog key, and a detection carrying it is ignored by the
counters' increment step. -/
theorem unknown_class_fallback (i : ℤ)
    (h0 : i ≠ 0) (h1 : i ≠ 1) (h2 : i ≠ 2) (h3 : i ≠ 3) :
    classNameOf i = "Class_" ++ toString i ∧
    ("Class_" ++ toString i) ∉ catalog ∧
    (∀ b : YoloBox, b.cls = i → (mkDetection b).class_name = "Class_" ++ toString i) ∧
    (∀ (m : String → ℕ) (d : Detection), d.class_name = classNameOf i → incCount m d = m) := by
  have hname : classNameOf i = "Class_" ++ toString i := by
    unfold classNameOf class_names
    rw [if_neg h0, if_neg h1, if_neg h2, if_neg h3]
    rfl
  refine ⟨hname, class_fallback_not_in_catalog _, ?_, ?_⟩
  · intro b hb
    unfold mkDetection
    rw [hb, hname]
  · intro m d hd
    unfold incCount
    rw [if_neg]
    rw [hd, hname]
    exact class_fallback_not_in_catalog _

theorem unknown_class_fallback_witness :
    classNameOf 7 = "Class_" ++ toString (7 : ℤ) ∧
    ("Class_" ++ toString (7 : ℤ)) ∉ catalog ∧
    (∀ b : YoloBox, b.cls = 7 → (mkDetection b).class_name = "Class_" ++ toString (7 : ℤ)) ∧
    (∀ (m : String → ℕ) (d : Detection), d.class_name = classNameOf 7 → incCount m d = m) :=
  unknown_class_fallback 7 (by decide) (by decide) (by decide) (by decide)

/-- C8: `detect` returns the `None` sentinel when the model is unloaded or
the model call raises, and `process_results` maps `None` or an empty result
list to `(None, [])` — a `None` frame always comes with an empty
detection list. -/
theorem detect_no_result_sentinel {Frame : Type} (frame : Frame) (conf : ℚ)
    (run : Frame → ℚ → Except String (List YoloResult)) (e : String)
    (plot : YoloResult → Option Frame) (res : Option (List YoloResult))
    (hrun : run frame conf = Except.error e)
    (hnull : (process_results plot res).1 = none) :
    detect none frame conf = none ∧
    detect (some run) frame conf = none ∧
    process_results plot (none : Option (List YoloResult)) = (none, []) ∧
    process_results plot (some []) = (none, []) ∧
    (process_results plot res).2 = [] := by
  refine ⟨rfl, ?_, rfl, rfl, ?_⟩
  · simp [detect, hrun]
  · cases res with
    | none => rfl
    | some rs =>
      cases rs with
      | nil => rfl
      | cons r rest =>
        cases hplot : plot r with
        | none => simp [process_results, hplot]
        | some f => simp [process_results, hplot] at hnull

theorem detect_no_result_sentinel_witness :
    detect none () ((1 : ℚ) / 2) = none ∧
    detect (some (fun (_ : Unit) (_ : ℚ) => (Except.error "boom" : Except String (List YoloResult)))) () ((1 : ℚ) / 2) = none ∧
    process_results (fun (_ : YoloResult) => (none : Option Unit))
      (none : Option (List YoloResult)) = (none, []) ∧
    process_results (fun (_ : YoloResult) => (none : Option Unit)) (some []) = (none, []) ∧
    (process_results (fun (_ : YoloResult) => (none : Option Unit))
      (none : Option (List YoloResult))).2 = [] :=
  detect_no_result_sentinel () ((1 : ℚ) / 2)
    (fun _ _ => Except.error "boom") "boom"
    (fun _ => (none : Option Unit)) (none : Option (List YoloResult)) rfl rfl

/-! ## FPSCalculator (`src/utils.py` lines 21-49)

`update` reads `time.time()`; the reading is passed in as `current_time`.
Durations live in `ℚ`. -/

structure FPSCalculator where
  buffer_size : ℕ
  frame_times : List ℚ
  last_time : ℚ
deriving DecidableEq

/-- `FPSCalculator.__init__` with the default `buffer_size=15`
(`src/utils.py` lines 24-27). -/
def FPSCalculator.init (now : ℚ) : FPSCalculator :=
  { buffer_size := 15, frame_times := [], last_time := now }

/-- The rate computation at the end of `update` (`src/utils.py` lines 39-44):
`1/avg` when the list is non-empty and the average is positive, else `0.0`. -/
def fpsOf (l : List ℚ) : ℚ :=
  if 0 < l.length then
    if 0 < l.sum / (l.length : ℚ) then 1 / (l.sum / (l.length : ℚ)) else 0
  else 0

/-- `FPSCalculator.update` (`src/utils.py` lines 29-44): append the new
inter-frame duration, `pop(0)` when the buffer exceeds capacity, then
return the mean-based rate. -/
def FPSCalculator.update (s : FPSCalculator) (current_time : ℚ) : FPSCalculator × ℚ :=
  let frame_time := current_time - s.last_time
  let ft := s.frame_times ++ [frame_time]
  let ft2 := if s.buffer_size < ft.length then ft.tail else ft
  ({ buffer_size := s.buffer_size, frame_times := ft2, last_time := current_time }, fpsOf ft2)

/-- C3: from any state within capacity, `update` keeps the duration buffer
within `buffer_size`, evicting exactly the front (oldest) sample on
overflow, and the returned rate is computed from that bounded buffer alone;
the default capacity is 15. -/
theorem fps_buffer_invariant (s : FPSCalculator) (t : ℚ)
    (h : s.frame_times.length ≤ s.buffer_size) :
    (s.update t).1.frame_times.length ≤ s.buffer_size ∧
    (s.update t).1.frame_times =
      (if s.frame_times.length < s.buffer_size
        then s.frame_times ++ [t - s.last_time]
        else (s.frame_times ++ [t - s.last_time]).tail) ∧
    (s.update t).2 = fpsOf (s.update t).1.frame_times ∧
    (FPSCalculator.init t).buffer_size = 15 := by
  have hlen : (s.frame_times ++ [t - s.last_time]).length = s.frame_times.length + 1 := by
    simp
  by_cases hlt : s.frame_times.length < s.buffer_size
  · have hno : ¬ s.buffer_size < (s.frame_times ++ [t - s.last_time]).length := by
      rw [hlen]; omega
    refine ⟨?_, ?_, rfl, rfl⟩
    · show (if s.buffer_size < (s.frame_times ++ [t - s.last_time]).length
          then (s.frame_times ++ [t - s.last_time]).tail
          else s.frame_times ++ [t - s.last_time]).length ≤ s.buffer_size
      rw [if_neg hno, hlen]
      omega
    · show (if s.buffer_size < (s.frame_times ++ [t - s.last_time]).length
          then (s.frame_times ++ [t - s.last_time]).tail
          else s.frame_times ++ [t - s.last_time]) = _
      rw [if_neg hno, if_pos hlt]
  · have heq : s.frame_times.length = s.buffer_size := by omega
    have hyes : s.buffer_size < (s.frame_times ++ [t - s.last_time]).length := by
      rw [hlen]; omega
    refine ⟨?_, ?_, rfl, rfl⟩
    · show (if s.buffer_size < (s.frame_times ++ [t - s.last_time]).length
          then (s.frame_times ++ [t - s.last_time]).tail
          else s.frame_times ++ [t - s.last_time]).length ≤ s.buffer_size
      rw [if_pos hyes, List.length_tail, hlen]
      omega
    · show (if s.buffer_size < (s.frame_times ++ [t - s.last_time]).length
          then (s.frame_times ++ [t - s.last_time]).tail
          else s.frame_times ++ [t - s.last_time]) = _
      rw [if_pos hyes, if_neg hlt]

theorem fps_buffer_invariant_witness :
    ((FPSCalculator.mk 2 [1, 1] 5).update 6).1.frame_times.length ≤ 2 ∧
    ((FPSCalculator.mk 2 [1, 1] 5).update 6).1.frame_times =
      (if ([1, 1] : List ℚ).length < 2
        then ([1, 1] : List ℚ) ++ [6 - 5]
        else (([1, 1] : List ℚ) ++ [6 - 5]).tail) ∧
    ((FPSCalculator.mk 2 [1, 1] 5).update 6).2 =
      fpsOf ((FPSCalculator.mk 2 [1, 1] 5).update 6).1.frame_times ∧
    (FPSCalculator.init 6).buffer_size = 15 :=
  fps_buffer_invariant (FPSCalculator.mk 2 [1, 1] 5) 6 (by simp)

/-- The rate equals the inverse mean whenever the buffered durations are
non-negative (durations are differences of successive clock readings, so
this covers every run of a non-decreasing clock); `1 / 0 = 0` in `ℚ`
coincides with the code returning `0.0` when the mean is `0`. -/
theorem fpsOf_eq_inv_mean (l : List ℚ) (h : ∀ x ∈ l, 0 ≤ x) :
    fpsOf l = if l = [] then 0 else 1 / (l.sum / (l.length : ℚ)) := by
  cases l with
  | nil => simp [fpsOf]
  | cons a rest =>
    have hlen : 0 < (a :: rest).length := Nat.succ_pos _
    have hsum : 0 ≤ (a :: rest).sum := List.sum_nonneg h
    have havg : 0 ≤ (a :: rest).sum / (((a :: rest).length : ℕ) : ℚ) := by
      apply div_nonneg hsum
      exact_mod_cast Nat.zero_le _
    rcases lt_or_eq_of_le havg with hpos | hzero
    · rw [fpsOf, if_pos hlen, if_pos hpos]
      simp
    · rw [fpsOf, if_pos hlen, if_neg (by rw [← hzero]; exact lt_irrefl 0)]
      rw [if_neg (by simp), ← hzero]
      simp

/-- C4 (amended): for every state and clock reading such that the
post-update buffered durations are all non-negative, the rate returned by
`update` is `1 /` the arithmetic mean of the buffered durations when the
buffer is non-empty, and `0` when it is empty. -/
theorem fps_value_nonneg (s : FPSCalculator) (t : ℚ)
    (h : ∀ x ∈ (s.update t).1.frame_times, 0 ≤ x) :
    (s.update t).2 =
      if (s.update t).1.frame_times = [] then 0
      else 1 / ((s.update t).1.frame_times.sum / ((s.update t).1.frame_times.length : ℚ)) :=
  fpsOf_eq_inv_mean _ h

theorem fps_value_nonneg_witness :
    ((FPSCalculator.init 0).update 2).2 =
      if ((FPSCalculator.init 0).update 2).1.frame_times = [] then 0
      else 1 / (((FPSCalculator.init 0).update 2).1.frame_times.sum /
        (((FPSCalculator.init 0).update 2).1.frame_times.length : ℚ)) := by
  have hbuf : ((FPSCalculator.init 0).update 2).1.frame_times = [2] := by
    norm_num [FPSCalculator.update, FPSCalculator.init]
  exact fps_value_nonneg (FPSCalculator.init 0) 2
    (by rw [hbuf]; intro x hx; rw [List.mem_singleton] at hx; rw [hx]; norm_num)

/-- C4 counterexample: when the clock reading moves backwards the single
buffered duration is negative; the code returns `0.0` (the `avg > 0` guard
fails) while the claimed formula gives `1 / mean = -1`. -/
theorem fps_value_claim_counterexample :
    ¬ (((FPSCalculator.init 0).update (-1)).2 =
      if ((FPSCalculator.init 0).update (-1)).1.frame_times = [] then 0
      else 1 / (((FPSCalculator.init 0).update (-1)).1.frame_times.sum /
        (((FPSCalculator.init 0).update (-1)).1.frame_times.length : ℚ))) := by
  have hbuf : ((FPSCalculator.init 0).update (-1)).1.frame_times = [-1] := by
    norm_num [FPSCalculator.update, FPSCalculator.init]
  have hv : ((FPSCalculator.init 0).update (-1)).2 = 0 := by
    norm_num [FPSCalculator.update, FPSCalculator.init, fpsOf]
  rw [hv, hbuf]
  norm_num

/-! ## Alert cooldown (`src/main.py` lines 402-442)

One loop iteration is summarised by the `time.time()` reading taken at line
435, whether a Drone-class detection is present (line 429), and whether the
Telegram send — attempted only when the gate opens — would succeed
(line 439).  State: `last_drone_notification`, initialised to `0`
(line 415); `notification_cooldown = 10` (line 416). -/

structure LoopEvent where
  time : ℚ
  droneDetected : Bool
  sendSuccess : Bool
deriving DecidableEq

/-- `notification_cooldown = 10` (`src/main.py` line 416). -/
def notification_cooldown : ℚ := 10

/-- The gate condition of `src/main.py` lines 436-437 (with a notifier
configured): a Drone detection is present and
`current_time - last_drone_notification > notification_cooldown`. -/
def alertAttempt (last : ℚ) (e : LoopEvent) : Prop :=
  e.droneDetected = true ∧ notification_cooldown < e.time - last

instance (last : ℚ) (e : LoopEvent) : Decidable (alertAttempt last e) := by
  unfold alertAttempt
  exact inferInstance

/-- One iteration of the alert logic (`src/main.py` lines 436-442): when the
gate opens, send; `last_drone_notification` is set to `current_time` only
when the send succeeds.  Returns the new `last_drone_notification` and
whether a successful alert fired. -/
def alertStep (last : ℚ) (e : LoopEvent) : ℚ × Bool :=
  if alertAttempt last e then
    (if e.sendSuccess = true then (e.time, true) else (last, false))
  else (last, false)

/-- The times of the successful alert sends over a run of loop
iterations, threading `last_drone_notification` through `alertStep`. -/
def alertFires : ℚ → List LoopEvent → List ℚ
  | _, [] => []
  | last, e :: es =>
    if (alertStep last e).2 = true then e.time :: alertFires (alertStep last e).1 es
    else alertFires (alertStep last e).1 es

theorem alertStep_not_fired (last : ℚ) (e : LoopEvent)
    (h : (alertStep last e).2 = false) : (alertStep last e).1 = last := by
  unfold alertStep at h ⊢
  by_cases hA : alertAttempt last e
  · rw [if_pos hA] at h ⊢
    by_cases hS : e.sendSuccess = true
    · rw [if_pos hS] at h
      simp at h
    · rw [if_neg hS]
  · rw [if_neg hA]

theorem alertFires_gt (es : List LoopEvent) :
    ∀ (last t : ℚ), t ∈ alertFires last es → last + notification_cooldown < t := by
  induction es with
  | nil => intro last t ht; simp [alertFires] at ht
  | cons e es ih =>
    intro last t ht
    rw [alertFires] at ht
    by_cases hfire : (alertStep last e).2 = true
    · have hA : alertAttempt last e := by
        by_contra hA
        unfold alertStep at hfire
        rw [if_neg hA] at hfire
        simp at hfire
      have hS : e.sendSuccess = true := by
        by_contra hS
        unfold alertStep at hfire
        rw [if_pos hA, if_neg hS] at hfire
        simp at hfire
      have hstep : alertStep last e = (e.time, true) := by
        unfold alertStep
        rw [if_pos hA, if_pos hS]
      rw [hfire, if_pos rfl, hstep] at ht
      have hgap : last + notification_cooldown < e.time := by
        have := hA.2
        linarith
      rcases List.mem_cons.mp ht with rfl | htail
      · exact hgap
      · have := ih e.time t htail
        have hcpos : (0 : ℚ) < notification_cooldown := by norm_num [notification_cooldown]
        linarith
    · have hf2 : (alertStep last e).2 = false := by
        cases hb : (alertStep last e).2
        · rfl
        · exact absurd hb hfire
      rw [if_neg (by rw [hf2]; simp), alertStep_not_fired last e hf2] at ht
      exact ih last t ht

theorem alertFires_sep (es : List LoopEvent) :
    ∀ last : ℚ,
      (alertFires last es).Pairwise (fun u v => u + notification_cooldown < v) := by
  induction es with
  | nil => intro last; simp [alertFires]
  | cons e es ih =>
    intro last
    rw [alertFires]
    by_cases hfire : (alertStep last e).2 = true
    · rw [if_pos hfire]
      have hlast : (alertStep last e).1 = e.time := by
        unfold alertStep at hfire ⊢
        by_cases hA : alertAttempt last e
        · rw [if_pos hA] at hfire ⊢
          by_cases hS : e.sendSuccess = true
          · rw [if_pos hS]
          · rw [if_neg hS] at hfire
            simp at hfire
        · rw [if_neg hA] at hfire
          simp at hfire
      rw [hlast]
      exact List.Pairwise.cons (fun t ht => alertFires_gt es e.time t ht) (ih e.time)
    · have hf2 : (alertStep last e).2 = false := by
        cases hb : (alertStep last e).2
        · rfl
        · exact absurd hb hfire
      rw [if_neg (by rw [hf2]; simp), alertStep_not_fired last e hf2]
      exact ih last

theorem countP_fire_window (l : List ℚ) (w f : ℚ) (hw : 0 < w)
    (hw2 : w ≤ notification_cooldown)
    (hp : l.Pairwise (fun u v => u + notification_cooldown < v)) (hf : f ∈ l) :
    l.countP (fun g => decide (f ≤ g ∧ g < f + w)) = 1 := by
  induction l with
  | nil => simp at hf
  | cons a t ih =>
    rw [List.pairwise_cons] at hp
    rw [List.countP_cons]
    rcases List.mem_cons.mp hf with rfl | hft
    · have hself : (decide (f ≤ f ∧ f < f + w)) = true := by
        simp only [decide_eq_true_eq]
        exact ⟨le_refl f, by linarith⟩
      have hrest : t.countP (fun g => decide (f ≤ g ∧ g < f + w)) = 0 := by
        rw [List.countP_eq_zero]
        intro b hb
        have hb2 := hp.1 b hb
        simp only [decide_eq_true_eq, not_and, not_lt]
        intro _
        linarith
      rw [hself, hrest]
      simp
    · have hafter := hp.1 f hft
      have hhead : (decide (f ≤ a ∧ a < f + w)) = false := by
        simp only [decide_eq_false_iff_not, not_and, not_lt]
        intro hfa
        linarith
      rw [hhead, ih hp.2 hft]
      simp

/-- C1: over any run of loop iterations in which every frame has a Drone
detection and every attempted send succeeds, successful alert sends are
pairwise separated by more than `notification_cooldown`, and any window of
width `w < notification_cooldown` starting at a successful fire contains
exactly one successful fire. -/
theorem alert_cooldown_suppression (es : List LoopEvent) (f w : ℚ)
    (hq : ∀ e ∈ es, e.droneDetected = true)
    (hs : ∀ e ∈ es, e.sendSuccess = true)
    (hf : f ∈ alertFires 0 es) (hw : 0 < w) (hw2 : w < notification_cooldown) :
    (alertFires 0 es).Pairwise (fun u v => notification_cooldown < v - u) ∧
    (alertFires 0 es).countP (fun g => decide (f ≤ g ∧ g < f + w)) = 1 := by
  constructor
  · exact (alertFires_sep es 0).imp (fun h => by linarith)
  · exact countP_fire_window _ w f hw (le_of_lt hw2) (alertFires_sep es 0) hf

/-- C2: after a gate-opening iteration whose send fails,
`last_drone_notification` is unchanged, so a Drone detection on any later
iteration (even within the cooldown window) opens the gate again; and in
general the timestamp changes only when the send succeeds. -/
theorem alert_retry_on_failure (last : ℚ) (e e2 : LoopEvent)
    (hAtt : alertAttempt last e) (hFail : e.sendSuccess = false)
    (hq : e2.droneDetected = true) (ht : e.time ≤ e2.time) :
    (alertStep last e).1 = last ∧
    alertAttempt (alertStep last e).1 e2 ∧
    (∀ (l : ℚ) (ev : LoopEvent), (alertStep l ev).1 ≠ l → ev.sendSuccess = true) := by
  have hS : ¬ e.sendSuccess = true := by rw [hFail]; simp
  have hkeep : (alertStep last e).1 = last := by
    unfold alertStep
    rw [if_pos hAtt, if_neg hS]
  refine ⟨hkeep, ?_, ?_⟩
  · rw [hkeep]
    exact ⟨hq, by have := hAtt.2; linarith⟩
  · intro l ev hne
    by_cases hA : alertAttempt l ev
    · by_cases hS2 : ev.sendSuccess = true
      · exact hS2
      · exact absurd (by unfold alertStep; rw [if_pos hA, if_neg hS2]) hne
    · exact absurd (by unfold alertStep; rw [if_neg hA]) hne

theorem alert_cooldown_suppression_witness :
    (alertFires 0 [LoopEvent.mk 11 true true]).Pairwise
      (fun u v => notification_cooldown < v - u) ∧
    (alertFires 0 [LoopEvent.mk 11 true true]).countP
      (fun g => decide ((11 : ℚ) ≤ g ∧ g < 11 + 5)) = 1 :=
  alert_cooldown_suppression [LoopEvent.mk 11 true true] 11 5
    (by intro e he; rw [List.mem_singleton] at he; rw [he])
    (by intro e he; rw [List.mem_singleton] at he; rw [he])
    (by
      have hA : alertAttempt 0 (LoopEvent.mk 11 true true) :=
        ⟨rfl, by norm_num [notification_cooldown]⟩
      have hstep : alertStep 0 (LoopEvent.mk 11 true true) = (11, true) := by
        unfold alertStep
        rw [if_pos hA, if_pos rfl]
      rw [alertFires, hstep]
      simp [alertFires])
    (by norm_num)
    (by norm_num [notification_cooldown])

theorem alert_retry_on_failure_witness :
    (alertStep 0 (LoopEvent.mk 11 true false)).1 = 0 ∧
    alertAttempt (alertStep 0 (LoopEvent.mk 11 true false)).1 (LoopEvent.mk 12 true true) ∧
    (∀ (l : ℚ) (ev : LoopEvent), (alertStep l ev).1 ≠ l → ev.sendSuccess = true) :=
  alert_retry_on_failure 0 (LoopEvent.mk 11 true false) (LoopEvent.mk 12 true true)
    ⟨rfl, by norm_num [notification_cooldown]⟩ rfl rfl (by norm_num)

/-! ## DroneDetector.get_detection_summary (`src/detector.py` lines 97-110)

A Python dict built by insertion is modelled as an association list in
insertion order; `summary[class_name] += 1` increments the first (unique)
entry with that key, `summary[class_name] = 1` appends a new entry. -/

/-- The loop body of `get_detection_summary` (`src/detector.py`
lines 103-108) for one class name. -/
def bump (m : List (String × ℕ)) (k : String) : List (String × ℕ) :=
  match m with
  | [] => [(k, 1)]
  | (k2, v) :: rest => if k2 = k then (k2, v + 1) :: rest else (k2, v) :: bump rest k

/-- One detection processed by the loop. -/
def bumpStep (m : List (String × ℕ)) (d : Detection) : List (String × ℕ) :=
  bump m d.class_name

/-- `DroneDetector.get_detection_summary` (`src/detector.py` lines 97-110):
empty dict for no detections, else count occurrences per class name. -/
def get_detection_summary (dets : List Detection) : List (String × ℕ) :=
  match dets with
  | [] => []
  | _ => dets.foldl bumpStep []

/-- Dict lookup with default 0: the count the summary reports for a key. -/
def getCount (m : List (String × ℕ)) (k : String) : ℕ :=
  match m with
  | [] => 0
  | (k2, v) :: rest => if k2 = k then v else getCount rest k

theorem getCount_bump (m : List (String × ℕ)) (k : String) :
    getCount (bump m k) k = getCount m k + 1 := by
  induction m with
  | nil => simp [bump, getCount]
  | cons p rest ih =>
    obtain ⟨k2, v⟩ := p
    by_cases h : k2 = k
    · simp [bump, getCount, h]
    · simp [bump, getCount, h, ih]

theorem getCount_bump_ne (m : List (String × ℕ)) (k j : String) (hne : j ≠ k) :
    getCount (bump m k) j = getCount m j := by
  have hkj : ¬ k = j := fun h => hne h.symm
  induction m with
  | nil => simp [bump, getCount, hkj]
  | cons p rest ih =>
    obtain ⟨k2, v⟩ := p
    by_cases h : k2 = k
    · subst h
      simp [bump, getCount, hkj]
    · simp [bump, getCount, h, ih]

theorem keys_bump (m : List (String × ℕ)) (k j : String) :
    j ∈ (bump m k).map Prod.fst ↔ (j ∈ m.map Prod.fst ∨ j = k) := by
  induction m with
  | nil => simp [bump]
  | cons p rest ih =>
    obtain ⟨k2, v⟩ := p
    by_cases h : k2 = k
    · subst h
      rw [bump, if_pos rfl]
      rw [List.map_cons, List.mem_cons, List.map_cons, List.mem_cons]
      tauto
    · rw [bump, if_neg h]
      rw [List.map_cons, List.mem_cons, ih, List.map_cons, List.mem_cons]
      tauto

theorem sum_bump (m : List (String × ℕ)) (k : String) :
    ((bump m k).map Prod.snd).sum = ((m.map Prod.snd).sum) + 1 := by
  induction m with
  | nil => simp [bump]
  | cons p rest ih =>
    obtain ⟨k2, v⟩ := p
    by_cases h : k2 = k
    · simp [bump, h]
      omega
    · simp [bump, h, ih]
      omega

theorem getCount_foldl (dets : List Detection) :
    ∀ (m : List (String × ℕ)) (k : String),
      getCount (dets.foldl bumpStep m) k
        = getCount m k + dets.countP (fun d => decide (d.class_name = k)) := by
  induction dets with
  | nil => intro m k; simp
  | cons d rest ih =>
    intro m k
    rw [List.foldl_cons, ih, List.countP_cons]
    by_cases h : d.class_name = k
    · rw [bumpStep, h, getCount_bump]
      simp [h]
      omega
    · rw [bumpStep, getCount_bump_ne m d.class_name k (fun h2 => h h2.symm)]
      simp [h]

theorem keys_foldl (dets : List Detection) :
    ∀ (m : List (String × ℕ)) (k : String),
      k ∈ (dets.foldl bumpStep m).map Prod.fst
        ↔ (k ∈ m.map Prod.fst ∨ k ∈ dets.map Detection.class_name) := by
  induction dets with
  | nil => intro m k; simp
  | cons d rest ih =>
    intro m k
    rw [List.foldl_cons, ih, bumpStep, keys_bump]
    simp
    tauto

theorem sum_foldl (dets : List Detection) :
    ∀ m : List (String × ℕ),
      ((dets.foldl bumpStep m).map Prod.snd).sum
        = ((m.map Prod.snd).sum) + dets.length := by
  induction dets with
  | nil => intro m; simp
  | cons d rest ih =>
    intro m
    rw [List.foldl_cons, ih, bumpStep, sum_bump, List.length_cons]
    omega

theorem get_detection_summary_eq_foldl (dets : List Detection) :
    get_detection_summary dets = dets.foldl bumpStep [] := by
  cases dets with
  | nil => rfl
  | cons d rest => rfl

/-- C10: the summary maps each class name occurring in the detection list to
its number of occurrences, its key set is exactly the set of occurring class
names, its values sum to the number of detections, and the empty list gives
the empty dict. -/
theorem detection_summary_counts (dets : List Detection) :
    (∀ k : String,
        getCount (get_detection_summary dets) k
          = dets.countP (fun d => decide (d.class_name = k))) ∧
    (∀ k : String,
        k ∈ (get_detection_summary dets).map Prod.fst
          ↔ k ∈ dets.map Detection.class_name) ∧
    ((get_detection_summary dets).map Prod.snd).sum = dets.length ∧
    get_detection_summary ([] : List Detection) = [] := by
  rw [get_detection_summary_eq_foldl]
  refine ⟨?_, ?_, ?_, rfl⟩
  · intro k
    rw [getCount_foldl]
    simp [getCount]
  · intro k
    rw [keys_foldl]
    simp
  · rw [sum_foldl]
    simp

/-! ## DroneDetector.draw_custom_annotations (`src/detector.py` lines 112-140)

NumPy buffer aliasing is made explicit: a store of allocated frame buffers,
indexed by position.  `frame.copy()` (line 117) allocates a fresh buffer
holding the same pixels; the three `cv2` calls of one loop iteration
(rectangle, label background, label text, lines 129-138) mutate only that
fresh buffer and are abstracted into one frame transformer `drawDet`. -/

structure BufStore (F : Type) where
  bufs : List F

/-- `draw_custom_annotations`: with no detections return the input buffer
itself (line 114-115); otherwise allocate a copy (line 117), draw every
detection's annotations into the copy (lines 119-138), and return the
copy (line 140).  Arguments: the store, the index of the caller's frame
buffer, and the detection list; returns the new store and the index of the
returned buffer. -/
def draw_custom_annotations {F : Type} (drawDet : F → Detection → F) (junk : F)
    (s : BufStore F) (idx : ℕ) (dets : List Detection) : BufStore F × ℕ :=
  match dets with
  | [] => (s, idx)
  | _ :: _ =>
    (BufStore.mk (s.bufs ++ [dets.foldl drawDet (s.bufs.getD idx junk)]), s.bufs.length)

/-- C9: with an empty detection list the input frame comes back unchanged
(same buffer, same store); with a non-empty list every pre-existing buffer —
in particular the caller's — is left unmodified, the returned buffer is a
fresh one distinct from the input, and it holds the input pixels with all
annotations drawn. -/
theorem annotator_frame_effect {F : Type} (drawDet : F → Detection → F) (junk : F)
    (s : BufStore F) (idx : ℕ) (dets : List Detection)
    (hne : dets ≠ []) (hidx : idx < s.bufs.length) :
    draw_custom_annotations drawDet junk s idx ([] : List Detection) = (s, idx) ∧
    (∀ j, j < s.bufs.length →
      (draw_custom_annotations drawDet junk s idx dets).1.bufs.getD j junk
        = s.bufs.getD j junk) ∧
    (draw_custom_annotations drawDet junk s idx dets).2 ≠ idx ∧
    (draw_custom_annotations drawDet junk s idx dets).1.bufs.getD
        (draw_custom_annotations drawDet junk s idx dets).2 junk
      = dets.foldl drawDet (s.bufs.getD idx junk) := by
  match dets with
  | [] => exact absurd rfl hne
  | d :: ds =>
    refine ⟨rfl, ?_, ?_, ?_⟩
    · intro j hj
      show (s.bufs ++ [(d :: ds).foldl drawDet (s.bufs.getD idx junk)]).getD j junk
          = s.bufs.getD j junk
      rw [List.getD_eq_getElem?_getD, List.getElem?_append_left hj,
        ← List.getD_eq_getElem?_getD]
    · show s.bufs.length ≠ idx
      omega
    · show (s.bufs ++ [(d :: ds).foldl drawDet (s.bufs.getD idx junk)]).getD
          s.bufs.length junk = (d :: ds).foldl drawDet (s.bufs.getD idx junk)
      rw [List.getD_eq_getElem?_getD, List.getElem?_concat_length]
      rfl

theorem annotator_frame_effect_witness :
    draw_custom_annotations (fun f _ => f + 1) 0 (BufStore.mk [5]) 0 ([] : List Detection)
      = (BufStore.mk [5], 0) ∧
    (∀ j, j < (BufStore.mk [(5 : ℕ)]).bufs.length →
      (draw_custom_annotations (fun f _ => f + 1) 0 (BufStore.mk [5]) 0 [sampleDrone]).1.bufs.getD j 0
        = (BufStore.mk [(5 : ℕ)]).bufs.getD j 0) ∧
    (draw_custom_annotations (fun f _ => f + 1) 0 (BufStore.mk [5]) 0 [sampleDrone]).2 ≠ 0 ∧
    (draw_custom_annotations (fun f _ => f + 1) 0 (BufStore.mk [5]) 0 [sampleDrone]).1.bufs.getD
        (draw_custom_annotations (fun f _ => f + 1) 0 (BufStore.mk [5]) 0 [sampleDrone]).2 0
      = [sampleDrone].foldl (fun f _ => f + 1) ((BufStore.mk [(5 : ℕ)]).bufs.getD 0 0) :=
  annotator_frame_effect (fun f _ => f + 1) 0 (BufStore.mk [5]) 0 [sampleDrone]
    (List.cons_ne_nil _ _) (by simp)
